import Mathlib

/-!
Verification of the `bamnostic` BAI (BAM index) parser, `bamnostic/bai.py`.

The development shallowly embeds the module's pure functions
(`reg2bin`, `reg2bins`) and its stateful parsing code (`Bai.__init__`,
`Bai.get_chunks`, `Bai.get_ints`, `Bai.get_bins`, `Bai.get_ref`,
`Bai.query`, `Bai.seek`) as Lean functions over an explicit byte-stream
state.  Python's machine-level behaviour is modelled with `Nat`/`Int`
arithmetic; fallible code returns `Except PyErr`.

Error naming: the design document uses abstract error names.  They map to
the concrete Python exceptions raised by the source as follows:
`FormatError` and `InvalidArgument` are `AssertionError`s (and, for
`Bai.seek`, `ValueError`), `FileNotFound` is `OSError`, and
`IntegrityError` is the `AssertionError` of `Bai.get_ref`.  The embedding
keeps the Python exception classes as constructors of `PyErr`.
-/

deriving instance DecidableEq for Except

namespace Bamnostic

/-- Python exception classes that the embedded code can raise. -/
inductive PyErr where
  /-- evaluation of an undefined name -/
  | nameError
  /-- an operation applied to a value of the wrong type -/
  | typeError
  /-- a `raise ValueError` -/
  | valueError
  /-- a failed `assert` statement -/
  | assertionError
  /-- an operating-system level I/O failure (bad seek, missing file) -/
  | osError
  /-- `struct.error`: too few bytes left in the stream for the format -/
  | structError
  /-- a missing dictionary key -/
  | keyError
  /-- a sequence index out of range -/
  | indexError
  deriving DecidableEq, Repr

/-- An opened binary file: its full contents plus the read head position.
Embeds the `self._io` file object of `Bai`. -/
structure ByteStream where
  data : List Nat
  pos : Nat
  deriving DecidableEq, Repr

/-- Python `fileobj.read(n)`: returns up to `n` bytes from the head
(and fewer, possibly none, at end of file), advancing the head by the
number of bytes actually returned. -/
def bsRead (n : Nat) (s : ByteStream) : List Nat × ByteStream :=
  let bs := (s.data.drop s.pos).take n
  (bs, { s with pos := s.pos + bs.length })

/-- Value of a little-endian byte sequence. -/
def leVal (bs : List Nat) : Nat :=
  bs.foldr (fun b acc => b + 256 * acc) 0

/-- Modelled from the spec: the byte-unpacking utility
`bamnostic.utils.unpack` (imported by `bai.py` but outside the parser
module) decodes fixed-width little-endian values from a stream; with too
few bytes remaining it raises `struct.error`.  `unpackBytes` is the
common core: read exactly `n` raw bytes. -/
def unpackBytes (n : Nat) (s : ByteStream) : Except PyErr (List Nat × ByteStream) :=
  let (bs, s1) := bsRead n s
  if bs.length = n then .ok (bs, s1) else .error .structError

/-- Modelled from the spec: `unpack('<I', _io)`, an unsigned 32-bit
little-endian integer. -/
def unpackU32 (s : ByteStream) : Except PyErr (Nat × ByteStream) := do
  let (bs, s1) ← unpackBytes 4 s
  .ok (leVal bs, s1)

/-- Two's-complement reading of an unsigned 32-bit value. -/
def toSigned32 (u : Nat) : Int :=
  if u < 2 ^ 31 then (u : Int) else (u : Int) - 2 ^ 32

/-- Modelled from the spec: `unpack('<l', _io)` / the `i`/`l` codes, a
signed 32-bit little-endian integer. -/
def unpackI32 (s : ByteStream) : Except PyErr (Int × ByteStream) := do
  let (bs, s1) ← unpackBytes 4 s
  .ok (toSigned32 (leVal bs), s1)

/-- Modelled from the spec: `unpack('<Q', _io)`, an unsigned 64-bit
little-endian integer. -/
def unpackU64 (s : ByteStream) : Except PyErr (Nat × ByteStream) := do
  let (bs, s1) ← unpackBytes 8 s
  .ok (leVal bs, s1)

/-!
## The binning scheme (`reg2bin`, `reg2bins`, bai.py lines 47-94)
-/

/-- Embedding of `reg2bin` (bai.py:47-63) for non-negative positions.
The source loop `for i in range(14, 27, 3)` with its `left_shift`
bookkeeping (15, 12, 9, 6, 3) is unrolled; each returned value is
written exactly as the source computes it, `((1 << left_shift) - 1) / 7
+ (beg >> i)` (the float division is exact, so `Nat` division agrees),
and the `for`/`else` fall-through returns `0`. -/
def reg2bin (beg e : Nat) : Nat :=
  if beg >>> 14 = (e - 1) >>> 14 then ((1 <<< 15) - 1) / 7 + (beg >>> 14)
  else if beg >>> 17 = (e - 1) >>> 17 then ((1 <<< 12) - 1) / 7 + (beg >>> 17)
  else if beg >>> 20 = (e - 1) >>> 20 then ((1 <<< 9) - 1) / 7 + (beg >>> 20)
  else if beg >>> 23 = (e - 1) >>> 23 then ((1 <<< 6) - 1) / 7 + (beg >>> 23)
  else if beg >>> 26 = (e - 1) >>> 26 then ((1 <<< 3) - 1) / 7 + (beg >>> 26)
  else 0

/-- `MAX_RNG = (2 ** 29) - 1` of `reg2bins` (bai.py:85). -/
def maxRng : Nat := 2 ^ 29 - 1

/-- `zip(BIN_ID_STARTS, range(29, 13, -3))` of `reg2bins` (bai.py:82,89):
the six `(bin-id base, shift)` levels. -/
def reg2binsLevels : List (Nat × Nat) :=
  List.zip [0, 1, 9, 73, 585, 4681] [29, 26, 23, 20, 17, 14]

/-- The sequence of bin ids produced by the body of the `reg2bins`
generator (bai.py:89-94) once its guard has passed: for each level,
`i = rbeg >> shift if rbeg > 0 else 0`,
`j = rend >> shift if rend < MAX_RNG else MAX_RNG >> shift`, and the
ids `start + k` for `k` in `range(i, j + 1)`. -/
def reg2binsList (rbeg rend : Nat) : List Nat :=
  reg2binsLevels.flatMap fun bs =>
    let i := if 0 < rbeg then rbeg >>> bs.2 else 0
    let j := if rend < maxRng then rend >>> bs.2 else maxRng >>> bs.2
    (List.range' i (j + 1 - i)).map fun k => bs.1 + k

/-- A suspended Python generator: running it either raises or returns
the (finite) sequence of yielded values. -/
structure PyGen (α : Type) where
  run : Except PyErr (List α)

instance {α : Type} [DecidableEq α] : DecidableEq (PyGen α) := fun a b =>
  decidable_of_iff (a.run = b.run) (by cases a; cases b; simp)

/-- Embedding of the body of the generator function `reg2bins`
(bai.py:65-94): the `assert 0 <= rbeg <= rend <= MAX_RNG` on line 87
runs first; afterwards both bounds are non-negative, so the loop is the
`Nat`-level `reg2binsList`. -/
def reg2bins (rbeg rend : Int) : PyGen Nat :=
  ⟨if 0 ≤ rbeg ∧ rbeg ≤ rend ∧ rend ≤ (maxRng : Int) then
      .ok (reg2binsList rbeg.toNat rend.toNat)
    else .error .assertionError⟩

/-- Embedding of a call expression `reg2bins(rbeg, rend)` (bai.py:65):
because `reg2bins` is a generator function (its body contains `yield`),
the call executes none of the body - in particular not the `assert` on
line 87 - and returns a suspended generator.  The call itself never
raises. -/
def reg2binsCall (rbeg rend : Int) : Except PyErr (PyGen Nat) :=
  .ok (reg2bins rbeg rend)

/-!
## Namedtuples and the `dict` model (bai.py lines 40-44)
-/

/-- The `Chunk` namedtuple (bai.py:42). -/
structure Chunk where
  voffset_beg : Nat
  voffset_end : Nat
  deriving DecidableEq, Repr

/-- The `RefIdx` namedtuple (bai.py:40); `n_bins` is the raw signed
32-bit count. -/
structure RefIdx where
  start_offset : Nat
  end_offset : Nat
  n_bins : Int
  deriving DecidableEq, Repr

/-- The `Ref` namedtuple (bai.py:43): the bins dict and the linear
intervals list of a fully parsed reference block. -/
structure Ref where
  bins : List (Nat × List Chunk)
  intervals : List Nat
  deriving DecidableEq, Repr

/-- The `Unmapped` namedtuple (bai.py:44), field names as in the source
(including its `unmmaped_beg` spelling). -/
structure Unmapped where
  unmmaped_beg : Nat
  unmapped_end : Nat
  n_mapped : Nat
  n_unmapped : Nat
  deriving DecidableEq, Repr

/-- Python `d[k] = v` on a dict modelled as an association list:
replace the value in place if the key is present, else append. -/
def dinsert {α : Type} [DecidableEq α] {β : Type} (k : α) (v : β) :
    List (α × β) → List (α × β)
  | [] => [(k, v)]
  | (k1, v1) :: rest =>
    if k1 = k then (k, v) :: rest else (k1, v1) :: dinsert k v rest

/-!
## Chunk, interval and bin parsing (bai.py lines 164-256)
-/

/-- Embedding of `Bai.get_chunks` (bai.py:164-184): unpack `n` pairs of
unsigned 64-bit virtual offsets into `Chunk`s. -/
def getChunks : Nat → ByteStream → Except PyErr (List Chunk × ByteStream)
  | 0, s => .ok ([], s)
  | n + 1, s => do
    let (b, s1) ← unpackU64 s
    let (e, s2) ← unpackU64 s1
    let (rest, s3) ← getChunks n s2
    .ok (⟨b, e⟩ :: rest, s3)

/-- Embedding of `Bai.get_ints` (bai.py:187-207): unpack `n` unsigned
64-bit linear-interval virtual offsets. -/
def getInts : Nat → ByteStream → Except PyErr (List Nat × ByteStream)
  | 0, s => .ok ([], s)
  | n + 1, s => do
    let (v, s1) ← unpackU64 s
    let (rest, s2) ← getInts n s1
    .ok (v :: rest, s2)

/-- `self._UNMAP_BIN = 37450` (bai.py:145). -/
def unmapBin : Nat := 37450

/-- Embedding of the full-mode (`idx=False`) branch of the
`Bai.get_bins` loop (bai.py:239-256): for each of the `n` bins, unpack
`(bin_id, n_chunks)` with `'<Ii'` and execute the `else` arm of lines
252-254, `bins[bin_id] = self.get_chunks(n_chunks)`.  No bin id -
including the reserved 37450 - receives special treatment on this path,
and `self.unmapped` is never touched, so the result is just the bins
dict and the advanced stream.  `Chunk` counts are signed; `range`
ignores a non-positive count, hence `Int.toNat`. -/
def getBinsFull : Nat → List (Nat × List Chunk) → ByteStream →
    Except PyErr (List (Nat × List Chunk) × ByteStream)
  | 0, bins, s => .ok (bins, s)
  | n + 1, bins, s => do
    let (binId, s1) ← unpackU32 s
    let (nChunks, s2) ← unpackI32 s1
    let (chunks, s3) ← getChunks nChunks.toNat s2
    getBinsFull n (dinsert binId chunks bins) s3

/-- Python `fileobj.seek(off, 1)`: move the head relative to its
current position; a negative resulting position is an `OSError`. -/
def bsSeekRel (off : Int) (s : ByteStream) : Except PyErr ByteStream :=
  let p : Int := (s.pos : Int) + off
  if p < 0 then .error .osError else .ok { s with pos := p.toNat }

/-- Embedding of the index-mode (`idx=True`) branch of the
`Bai.get_bins` loop (bai.py:239-256): for each of the `n` bins, unpack
`(bin_id, n_chunks)`; if `bin_id` is the reserved 37450, `assert
n_chunks == 2` (bai.py:246), unpack four unsigned 64-bit words into
`Unmapped` and store them in `self.unmapped[ref_id]`; otherwise skip
`16 * n_chunks` bytes when `n_chunks != 0`.  `bins` is `None` on this
path, so only the unmapped dict and the stream evolve. -/
def getBinsIdx : Nat → Option Nat → List (Option Nat × Unmapped) → ByteStream →
    Except PyErr (List (Option Nat × Unmapped) × ByteStream)
  | 0, _, unm, s => .ok (unm, s)
  | n + 1, refId, unm, s => do
    let (binId, s1) ← unpackU32 s
    let (nChunks, s2) ← unpackI32 s1
    if binId = unmapBin then do
      if nChunks = 2 then do
        let (w0, t1) ← unpackU64 s2
        let (w1, t2) ← unpackU64 t1
        let (w2, t3) ← unpackU64 t2
        let (w3, t4) ← unpackU64 t3
        getBinsIdx n refId (dinsert refId ⟨w0, w1, w2, w3⟩ unm) t4
      else .error .assertionError
    else
      if nChunks ≠ 0 then do
        let s3 ← bsSeekRel (16 * nChunks) s2
        getBinsIdx n refId unm s3
      else getBinsIdx n refId unm s2

/-!
## Reference parsing and `Bai.__init__` (bai.py lines 123-161, 260-310)
-/

/-- Embedding of `Bai.get_ref` with `idx=True` (bai.py:260-310), the
index-only pass used during `__init__`: record the current offset,
unpack `n_bins` and walk the bins in skip mode, unpack `n_int` and skip
`8 * n_int` bytes, and return `RefIdx(ref_start, _last_pos, n_bins)`
together with the updated unmapped dict and stream. -/
def getRefIdx (refId : Option Nat) (unm : List (Option Nat × Unmapped))
    (s : ByteStream) :
    Except PyErr (RefIdx × List (Option Nat × Unmapped) × ByteStream) := do
  let refStart := s.pos
  let (nBins, s1) ← unpackI32 s
  let (unm1, s2) ← getBinsIdx nBins.toNat refId unm s1
  let (nInt, s3) ← unpackI32 s2
  let s4 ← bsSeekRel (8 * nInt) s3
  .ok (⟨refStart, s4.pos, nBins⟩, unm1, s4)

/-- The state a successfully constructed `Bai` object holds. -/
structure BaiModel where
  stream : ByteStream
  magic : List Nat
  nRefs : Int
  unmapped : List (Option Nat × Unmapped)
  refIndices : List (Nat × RefIdx)
  nNoCoor : Option Nat
  lastPos : Nat
  deriving DecidableEq, Repr

/-- Embedding of `Bai.__init__` (bai.py:123-161) applied to an opened
in-memory byte source.  After the file is opened and the two constants
are set, line 147 executes
`self.magic, self.n_refs = unpack("<4sl", serf._io)`: the name `serf`
is defined nowhere - not in the module and not in `bamnostic.utils` -
so evaluating the argument raises `NameError` before a single byte of
the index is read, and no `Bai` object can ever be constructed. -/
def baiInit (_data : List Nat) : Except PyErr BaiModel :=
  .error .nameError

/-- `Bai.__init__`'s loop `{ref: self.get_ref(ref, idx=True) for ref in
range(self.n_refs)}` (bai.py:155): build the reference catalog in
strict sequential order. -/
def buildRefIndices : Nat → Nat → List (Nat × RefIdx) →
    List (Option Nat × Unmapped) → ByteStream →
    Except PyErr (List (Nat × RefIdx) × List (Option Nat × Unmapped) × ByteStream)
  | 0, _, refIdx, unm, s => .ok (refIdx, unm, s)
  | n + 1, ref, refIdx, unm, s => do
    let (ri, unm1, s1) ← getRefIdx (some ref) unm s
    buildRefIndices n (ref + 1) (dinsert ref ri refIdx) unm1 s1

/-- `Bai.__init__` (bai.py:123-161) with the line-147 slip read as the
docstring and the design document describe it: `serf` read as `self`,
so the header actually gets decoded.  Everything else follows the
source: unpack `"<4sl"` (4 magic bytes, then signed 32-bit `n_refs`),
`assert self.magic == b'BAI\x01'`, build `ref_indices` over
`range(n_refs)`, read 8 trailer bytes (`n_no_coor` when non-empty,
`None` at end of file), and record `_last_pos`. -/
def baiInitIntended (data : List Nat) : Except PyErr BaiModel := do
  let s : ByteStream := ⟨data, 0⟩
  let (magicBs, s1) ← unpackBytes 4 s
  let (nRefs, s2) ← unpackI32 s1
  if magicBs = [0x42, 0x41, 0x49, 0x01] then do
    let (refIdx, unm, s3) ← buildRefIndices nRefs.toNat 0 [] [] s2
    let (nncDat, s4) := bsRead 8 s3
    let nNoCoor ← (if nncDat.isEmpty then .ok none
      else if nncDat.length = 8 then .ok (some (leVal nncDat))
      else .error .structError : Except PyErr (Option Nat))
    .ok ⟨s4, magicBs, nRefs, unm, refIdx, nNoCoor, s4.pos⟩
  else .error .assertionError

/-- Embedding of `Bai.get_ref` with `idx=False` (bai.py:260-310), the
full-mode random-access parse: look the reference up in `ref_indices`
(`KeyError` if absent), seek to its start offset, re-check the cursor
against the catalog (`assert ref_start == ...start_offset`,
bai.py:294), unpack `n_bins` and the bins in full mode, unpack `n_int`
and the linear intervals, record `_last_pos`, and return
`Ref(bins, ints)`. -/
def getRefFull (refId : Nat) (m : BaiModel) : Except PyErr (Ref × BaiModel) := do
  let ri ← (match List.lookup refId m.refIndices with
    | some ri => .ok ri
    | none => .error .keyError : Except PyErr RefIdx)
  let s0 : ByteStream := { m.stream with pos := ri.start_offset }
  let refStart := s0.pos
  if refStart = ri.start_offset then do
    let (nBins, s1) ← unpackI32 s0
    let (bins, s2) ← getBinsFull nBins.toNat [] s1
    let (nInt, s3) ← unpackI32 s2
    let (ints, s4) ← getInts nInt.toNat s3
    .ok (⟨bins, ints⟩, { m with stream := s4, lastPos := s4.pos })
  else .error .assertionError

/-!
## `Bai.seek` (bai.py lines 362-382)
-/

/-- Python values that can be passed as the `offset` argument of
`Bai.seek`: `None`, an `int`, or some non-integer object (a string,
say). -/
inductive PyVal where
  | pyNone
  | pyInt (i : Int)
  | pyStr (s : List Nat)
  deriving DecidableEq, Repr

/-- Embedding of the CPython evaluation of
`isinstance(offset, (int, None))` (bai.py:375).  `isinstance` checks
the tuple items left to right and returns `True` at the first match, so
an integer offset matches `int` and yields `True` without the second
item ever being inspected; for any other offset the item `None` is
reached, and because `None` is not a type, the call raises
`TypeError` instead of returning `False`. -/
def isinstanceIntNone (v : PyVal) : Except PyErr Bool :=
  match v with
  | .pyInt _ => .ok true
  | _ => .error .typeError

/-- Embedding of `Bai.seek` (bai.py:362-382): guard the offset with
`isinstance(offset, (int, None))`, raise `ValueError('No offset
provided')` for `None`, otherwise delegate to the file object's seek
and return the new head position; the final `else` raises
`ValueError('offset must be an integer or None')`. -/
def baiSeek (offset : PyVal) (whence : Int) (s : ByteStream) :
    Except PyErr (Nat × ByteStream) := do
  let b ← isinstanceIntNone offset
  if b then
    match offset with
    | .pyNone => .error .valueError
    | .pyInt i =>
      if whence = 0 ∨ whence = 1 ∨ whence = 2 then
        let base : Int :=
          if whence = 0 then 0
          else if whence = 1 then (s.pos : Int)
          else (s.data.length : Int)
        let p := base + i
        if p < 0 then .error .osError
        else .ok (p.toNat, { s with pos := p.toNat })
      else .error .valueError
    | .pyStr _ => .error .typeError
  else .error .valueError

/-!
## `Bai.query` (bai.py lines 313-360)

`query` is a generator function, so a call runs nothing; the body runs
on first consumption.  The body as written cannot get past line 327:
`get_ref` returns the `Ref` *namedtuple* (bai.py:43, 310), yet line 327
evaluates `self.current_ref['intervals']` - a string subscript on a
tuple, which raises `TypeError` (the same line also references the
undefined attribute `self.LINEAR_INDEX_WINDOW`, but the subscript is
evaluated first; lines 329, 337 and 344 carry the same string
subscripts, and the `except KeyError` of line 345 would not catch a
`TypeError`).  So every consumption fails before any bin is visited or
chunk admitted, and the merge pass of lines 339-360 is unreachable.

The class docstring documents the opposite shape: `current_ref
(None|dict): dictionary of the current reference ... a dictionary of
bin IDs and their respective chunks, and a list of linear intervals`
(bai.py:115-117).  The definitions below therefore come in two layers,
exactly as for `__init__`: `baiQueryRun` embeds the consumption as
written (dies with `TypeError` after `get_ref`), and
`baiQueryIntendedRun` embeds it with the string subscripts read as the
docstring documents them, for comparing the claims against the
documented intent.
-/

/-- `self._LINEAR_INDEX_WINDOW = 16384` (bai.py:144).  Line 327
misspells it `self.LINEAR_INDEX_WINDOW`. -/
def linearIndexWindow : Nat := 16384

/-- Embedding of the first consumption of the `Bai.query` generator
(bai.py:313-360) as written: line 324 loads the reference block through
`get_ref` (full mode, with its effects and errors), and line 327 then
raises `TypeError` by string-subscripting the `Ref` namedtuple, before
any interval, bin or chunk is looked at and before anything is
yielded. -/
def baiQueryRun (refId _start _stop : Nat) (m : BaiModel) :
    Except PyErr (List (Option Nat × Option Nat) × BaiModel) := do
  let (_r, _m1) ← getRefFull refId m
  .error .typeError

/-- Python truthiness of `current_start` (bai.py:350): `not x` is true
both for `None` and for the integer `0`. -/
def falsy : Option Nat → Bool
  | none => true
  | some v => v == 0

/-- The chunk-merging accumulator that lines 339-360 of `Bai.query`
spell out, taken on its own as a function of the sequence of admitted
chunks (in the program the pass is unreachable: consumption dies at
line 327 first, see `baiQueryRun`).  State `(current_start,
current_end)` starts as `(None, None)`; per chunk, `if not
current_start` (Python truthiness) starts or silently replaces a run,
`elif chunk.voffset_beg == current_end` extends the run, and otherwise
the pending run is yielded before a new run starts; the `for`/`else`
on lines 359-360 always yields the final `(current_start,
current_end)` pair. -/
def queryMergeLoop : List Chunk → Option Nat → Option Nat →
    List (Option Nat × Option Nat)
  | [], cs, ce => [(cs, ce)]
  | c :: rest, cs, ce =>
    if falsy cs then queryMergeLoop rest (some c.voffset_beg) (some c.voffset_end)
    else if ce = some c.voffset_beg then queryMergeLoop rest cs (some c.voffset_end)
    else (cs, ce) :: queryMergeLoop rest (some c.voffset_beg) (some c.voffset_end)

/-- The bin traversal and admission test that lines 342-349 of
`Bai.query` describe, under the class docstring's documented reading of
`current_ref` (bai.py:115-117) in which `['bins']` selects the bins
dict of the loaded reference block: walk the bin ids in `reg2bins`
order, skip bins absent from the dict (`KeyError` → `continue`), and
admit the chunks satisfying `start_offset <= chunk.voffset_beg and
chunk.voffset_end < end_offset`, in on-file order.  In the source as
written, line 344's `self.current_ref['bins']` string-subscripts the
`Ref` namedtuple and would itself raise an uncaught `TypeError`; this
definition is therefore used only inside the documented-intent model
`baiQueryIntendedRun`, never to describe the program's actual
output. -/
def admittedChunks (bins : List (Nat × List Chunk)) (binIds : List Nat)
    (startOff endOff : Nat) : List Chunk :=
  binIds.flatMap fun bid =>
    match List.lookup bid bins with
    | none => []
    | some cs => cs.filter fun c =>
        startOff ≤ c.voffset_beg && c.voffset_end < endOff

/-- Modelled from the spec: `ceildiv` of `bamnostic.utils` (imported by
bai.py but outside the parser module), the ceiling division used on
bai.py:329; the design document (§4.6) reads it as
`ceil(stop / 16384)`. -/
def ceildiv (a b : Nat) : Nat := (a + b - 1) / b

/-- `Bai.query` (bai.py:313-360) with its slips read as the class
docstring and the design document describe them: the string subscripts
`['intervals']`/`['bins']` on lines 327, 329, 337 and 344 read as
selecting the components of the loaded reference block (bai.py:115-117
documents `current_ref` as a dict holding exactly those two), and
line 327's `self.LINEAR_INDEX_WINDOW` read as
`self._LINEAR_INDEX_WINDOW`.  Everything else follows the source:
`get_ref` full mode first (line 324); `start_offset =
intervals[start // 16384]` (an out-of-range index is an uncaught
`IndexError`); `end_offset = intervals[ceildiv(stop, 16384)]` with the
`except IndexError` fallback `intervals[-1] + 1` (lines 328-337, itself
an `IndexError` on an empty intervals list); then the loop over
`reg2bins(start, stop)` - whose line-87 assert fires at the first
iteration - with the admission test and the merge accumulator of lines
339-360. -/
def baiQueryIntendedRun (refId start stop : Nat) (m : BaiModel) :
    Except PyErr (List (Option Nat × Option Nat) × BaiModel) := do
  let (r, m1) ← getRefFull refId m
  let startOff ← (match r.intervals.get? (start / linearIndexWindow) with
    | some v => .ok v
    | none => .error .indexError : Except PyErr Nat)
  let endOff ← (match r.intervals.get? (ceildiv stop linearIndexWindow) with
    | some v => .ok v
    | none =>
      match r.intervals.getLast? with
      | some w => .ok (w + 1)
      | none => .error .indexError : Except PyErr Nat)
  let binIds ← (reg2bins (start : Int) (stop : Int)).run
  .ok (queryMergeLoop (admittedChunks r.bins binIds startOff endOff) none none, m1)

/-!
## The six-level binning scheme, as the design document states it

The design document (§4.5) describes `reg2bin` extensionally: it must
return "the id of the single smallest bin fully containing" the query
region, under the fixed scheme whose levels have bin-id bases
0, 1, 9, 73, 585, 4681 and window sizes `2^29` down to `2^14`.  The
following definitions state that geometry: which level a bin id lives
on, which genomic interval it spans, and what it means to contain a
region.  They are the specification side of the refinement claim about
`reg2bin` and are deliberately independent of its loop.
-/

/-- The shift (log2 window size) of the level a bin id belongs to. -/
def binShiftOf (b : Nat) : Nat :=
  if b = 0 then 29
  else if b < 9 then 26
  else if b < 73 then 23
  else if b < 585 then 20
  else if b < 4681 then 17
  else 14

/-- The bin-id base of the level a bin id belongs to. -/
def binBaseOf (b : Nat) : Nat :=
  if b = 0 then 0
  else if b < 9 then 1
  else if b < 73 then 9
  else if b < 585 then 73
  else if b < 4681 then 585
  else 4681

/-- Leftmost genomic position spanned by a bin id. -/
def binLo (b : Nat) : Nat := (b - binBaseOf b) <<< binShiftOf b

/-- Number of valid bin ids: `4681 + 2^15`. -/
def numBins : Nat := 37449

/-- Bin `b` fully contains the half-open region `[beg, e)`. -/
def binCovers (b beg e : Nat) : Prop :=
  b < numBins ∧ binLo b ≤ beg ∧ e ≤ binLo b + (1 <<< binShiftOf b)

instance (b beg e : Nat) : Decidable (binCovers b beg e) := by
  unfold binCovers; infer_instance

/-!
## Concrete inputs used by the theorems
-/

/-- The minimal synthetic index file: magic `b'BAI\x01'`, `n_ref = 1`,
`n_bin = 0`, `n_intv = 0`, all little-endian. -/
def minimalIndexBytes : List Nat :=
  [0x42, 0x41, 0x49, 0x01, 1, 0, 0, 0, 0, 0, 0, 0, 0, 0, 0, 0]

/-- One on-file bin record with the reserved id 37450 (`0x924A` LE) and
`n_chunks = 2`, followed by the four unsigned 64-bit unmapped-stats
words 100, 200, 5, 7. -/
def reservedBinBytes : List Nat :=
  [0x4A, 0x92, 0, 0, 2, 0, 0, 0,
   100, 0, 0, 0, 0, 0, 0, 0,
   200, 0, 0, 0, 0, 0, 0, 0,
   5, 0, 0, 0, 0, 0, 0, 0,
   7, 0, 0, 0, 0, 0, 0, 0]

/-- One on-file bin record with the reserved id 37450 and
`n_chunks = 0`. -/
def reservedBinZeroChunkBytes : List Nat :=
  [0x4A, 0x92, 0, 0, 0, 0, 0, 0]

/-- One on-file bin record with the reserved id 37450 and
`n_chunks = 3`. -/
def reservedBinThreeChunkBytes : List Nat :=
  [0x4A, 0x92, 0, 0, 3, 0, 0, 0]

/-- An index file with one reference holding bin 4681 (`0x1249` LE)
with the two touching chunks `(2, 5)` and `(5, 9)`, and the two linear
intervals 0 and 50 (so that a query over `[0, 100)` admits both
chunks). -/
def touchingChunkIndexBytes : List Nat :=
  [0x42, 0x41, 0x49, 0x01, 1, 0, 0, 0,
   1, 0, 0, 0, 0x49, 0x12, 0, 0, 2, 0, 0, 0,
   2, 0, 0, 0, 0, 0, 0, 0,
   5, 0, 0, 0, 0, 0, 0, 0,
   5, 0, 0, 0, 0, 0, 0, 0,
   9, 0, 0, 0, 0, 0, 0, 0,
   2, 0, 0, 0,
   0, 0, 0, 0, 0, 0, 0, 0,
   50, 0, 0, 0, 0, 0, 0, 0]

/-- An index file with one reference holding bin 4681 with the chunks
`(0, 5)` and `(7, 9)` - the first with a zero begin offset - and the
two linear intervals 0 and 50. -/
def zeroChunkIndexBytes : List Nat :=
  [0x42, 0x41, 0x49, 0x01, 1, 0, 0, 0,
   1, 0, 0, 0, 0x49, 0x12, 0, 0, 2, 0, 0, 0,
   0, 0, 0, 0, 0, 0, 0, 0,
   5, 0, 0, 0, 0, 0, 0, 0,
   7, 0, 0, 0, 0, 0, 0, 0,
   9, 0, 0, 0, 0, 0, 0, 0,
   2, 0, 0, 0,
   0, 0, 0, 0, 0, 0, 0, 0,
   50, 0, 0, 0, 0, 0, 0, 0]

/-- The previous index file with the zero-begin chunk deleted: bin 4681
holds only the chunk `(7, 9)`, same intervals. -/
def soloChunkIndexBytes : List Nat :=
  [0x42, 0x41, 0x49, 0x01, 1, 0, 0, 0,
   1, 0, 0, 0, 0x49, 0x12, 0, 0, 1, 0, 0, 0,
   7, 0, 0, 0, 0, 0, 0, 0,
   9, 0, 0, 0, 0, 0, 0, 0,
   2, 0, 0, 0,
   0, 0, 0, 0, 0, 0, 0, 0,
   50, 0, 0, 0, 0, 0, 0, 0]

/-!
## Claim theorems
-/

/-- C1.  The claim says opening the minimal synthetic index (magic,
`n_ref = 1`, `n_bin = 0`, `n_intv = 0`) succeeds with `n_refs == 1` and
an empty reference block.  The code cannot do this: line 147 of
`Bai.__init__` reads the undefined name `serf`, so opening any file -
in particular this one - raises `NameError`.  The second and third
conjuncts evaluate `__init__` with that one slip read as documented
(`serf` as `self`) and show the claim describes exactly the intended
behaviour: `n_refs` is 1 and the full-mode parse of reference 0 is a
`Ref` with empty bins dict and empty intervals list. -/
theorem open_minimal_index_raises_nameError :
    baiInit minimalIndexBytes = .error .nameError
    ∧ Except.map (fun m => m.nRefs) (baiInitIntended minimalIndexBytes) = .ok 1
    ∧ Except.map (fun p => p.1)
        ((baiInitIntended minimalIndexBytes).bind (fun m => getRefFull 0 m)) =
        .ok ⟨[], []⟩ := by
  refine ⟨rfl, rfl, rfl⟩

/-- C2 (counterexample).  The claim says two consecutively admitted
touching chunks are yielded merged as the single pair `(first.begin,
second.end)`.  On an index whose reference 0 holds exactly the touching
chunks `(2, 5)` and `(5, 9)` in bin 4681, with intervals making both
admissible for `query(0, 0, 100)`, consuming the query yields nothing
at all: after `get_ref` succeeds, line 327 raises `TypeError` by
string-subscripting the `Ref` namedtuple (the line also references the
undefined attribute `self.LINEAR_INDEX_WINDOW`), so no merged pair -
nor any pair - is ever produced. -/
theorem query_touching_chunks_counterexample :
    (baiInitIntended touchingChunkIndexBytes).bind (baiQueryRun 0 0 100) =
      .error .typeError
    ∧ ((baiInitIntended touchingChunkIndexBytes).bind (baiQueryRun 0 0 100)).isOk
        = false := by
  exact ⟨rfl, rfl⟩

/-- The merge loop on an exhausted chunk sequence yields the pending
accumulator pair (the `for`/`else` of bai.py:359-360). -/
theorem queryMergeLoop_nil (cs ce : Option Nat) :
    queryMergeLoop [] cs ce = [(cs, ce)] := rfl

/-- Merge-loop step, falsy accumulator: start (or silently replace) a
run (bai.py:350-352). -/
theorem queryMergeLoop_cons_falsy (c : Chunk) (rest : List Chunk)
    (cs ce : Option Nat) (h : falsy cs = true) :
    queryMergeLoop (c :: rest) cs ce =
      queryMergeLoop rest (some c.voffset_beg) (some c.voffset_end) := by
  simp [queryMergeLoop, h]

/-- Merge-loop step, touching chunk: extend the run (bai.py:353-354). -/
theorem queryMergeLoop_cons_extend (c : Chunk) (rest : List Chunk)
    (cs ce : Option Nat) (h1 : falsy cs = false) (h2 : ce = some c.voffset_beg) :
    queryMergeLoop (c :: rest) cs ce =
      queryMergeLoop rest cs (some c.voffset_end) := by
  simp [queryMergeLoop, h1, h2]

/-- Merge-loop step, gap: flush the pending run and start a new one
(bai.py:355-358). -/
theorem queryMergeLoop_cons_flush (c : Chunk) (rest : List Chunk)
    (cs ce : Option Nat) (h1 : falsy cs = false) (h2 : ce ≠ some c.voffset_beg) :
    queryMergeLoop (c :: rest) cs ce =
      (cs, ce) :: queryMergeLoop rest (some c.voffset_beg) (some c.voffset_end) := by
  simp [queryMergeLoop, h1, h2]

/-- C2 (amended).  `query`'s chunk-merging pass is unreachable: for
every reference id, region and index state, consuming
`query(ref_id, start, stop)` fails before any chunk is admitted - with
the `TypeError` of bai.py:327 once `get_ref` succeeds, and with
`get_ref`'s own error otherwise - so the query never yields any pair,
merged or separate. -/
theorem query_never_yields_pairs (refId start stop : Nat) (m : BaiModel) :
    baiQueryRun refId start stop m =
      (getRefFull refId m).bind (fun _ => .error .typeError)
    ∧ (baiQueryRun refId start stop m).isOk = false := by
  constructor <;>
    · unfold baiQueryRun
      rcases hr : getRefFull refId m with e | p <;> rfl

/-- Algebra of the isolated merge accumulator (bai.py:348-360), for two
chunks whose run begin is non-zero (so the truthiness test really means
"no run in progress"): a touching second chunk extends the run into the
single pair `(first.begin, second.end)`, a gapped one flushes and the
two pairs come out separately.  Within `query` this code is
unreachable (see `baiQueryRun`). -/
theorem queryMerge_two_chunks (c1 c2 : Chunk) (h : c1.voffset_beg ≠ 0) :
    (c2.voffset_beg = c1.voffset_end →
      queryMergeLoop [c1, c2] none none =
        [(some c1.voffset_beg, some c2.voffset_end)])
    ∧ (c2.voffset_beg ≠ c1.voffset_end →
      queryMergeLoop [c1, c2] none none =
        [(some c1.voffset_beg, some c1.voffset_end),
         (some c2.voffset_beg, some c2.voffset_end)]) := by
  have hf : falsy (some c1.voffset_beg) = false := by
    simp [falsy, h]
  constructor <;> intro hc
  · rw [queryMergeLoop_cons_falsy c1 [c2] none none rfl,
      queryMergeLoop_cons_extend _ _ _ _ hf (by rw [hc]),
      queryMergeLoop_nil]
  · rw [queryMergeLoop_cons_falsy c1 [c2] none none rfl,
      queryMergeLoop_cons_flush _ _ _ _ hf
        (fun heq => hc (Option.some.inj heq).symm),
      queryMergeLoop_nil]

/-- C5.  The claim says that in full (random-access) mode a bin with
the reserved id 37450 is diverted to the unmapped-stats store and the
bins dict never contains the key 37450.  The full-mode branch of
`Bai.get_bins` (bai.py:252-254) has no such case: parsing one reserved
bin record with `n_chunks = 2` and the four stats words 100, 200, 5, 7
stores the stats bytes as two ordinary chunks under key 37450 and never
touches `self.unmapped`, while the index-mode branch on the same bytes
does divert them to the unmapped dict. -/
theorem getBinsFull_keeps_reserved_bin_in_bins :
    getBinsFull 1 [] ⟨reservedBinBytes, 0⟩ =
      .ok ([(unmapBin, [⟨100, 200⟩, ⟨5, 7⟩])], ⟨reservedBinBytes, 40⟩)
    ∧ getBinsIdx 1 (some 0) [] ⟨reservedBinBytes, 0⟩ =
      .ok ([(some 0, ⟨100, 200, 5, 7⟩)], ⟨reservedBinBytes, 40⟩) := by
  exact ⟨by decide, by decide⟩

/-- C6 (counterexample).  The claim says `reg2bins(-1, 5)` raises its
invalid-argument error synchronously at the call.  It does not:
`reg2bins` is a generator function, so the call returns a suspended
generator without running the `assert`; the error only appears when the
output sequence is first consumed. -/
theorem reg2binsCall_defers_validation :
    (reg2binsCall (-1) 5).isOk = true
    ∧ (reg2bins (-1) 5).run = .error .assertionError := by
  exact ⟨rfl, by decide⟩

/-- C6 (amended).  Consuming `reg2bins(rbeg, rend)` fails with the
invalid-argument `AssertionError` for `rbeg = -1`, for `rbeg > rend`,
and for `rend = 2^29`; the check is deferred to the first consumption
of the generator (not the call), and no element is yielded and no state
is touched before it fails. -/
theorem reg2bins_run_invalid_region (rbeg rend : Int)
    (h : rbeg = -1 ∨ rbeg > rend ∨ rend = 2 ^ 29) :
    (reg2bins rbeg rend).run = .error .assertionError := by
  have hm : (maxRng : Int) = 536870911 := by norm_num [maxRng]
  have hguard : ¬(0 ≤ rbeg ∧ rbeg ≤ rend ∧ rend ≤ (maxRng : Int)) := by
    rw [hm]; omega
  simp [reg2bins, hguard]

/-- Witness for C6 (amended) at `rbeg = -1`, `rend = 5`. -/
theorem reg2bins_run_invalid_region_witness :
    ((-1 : Int) = -1 ∨ (-1 : Int) > 5 ∨ (5 : Int) = 2 ^ 29)
    ∧ (reg2bins (-1) 5).run = .error .assertionError :=
  ⟨Or.inl rfl, reg2bins_run_invalid_region (-1) 5 (Or.inl rfl)⟩

/-- C7.  The claim says a reserved bin 37450 whose chunk count is not 2
fails with the format error in either mode.  Only the index-mode branch
checks it: on a record with id 37450 and `n_chunks = 3` the index-mode
parse raises the `AssertionError` of bai.py:246, but the full-mode
parse of a record with id 37450 and `n_chunks = 0` succeeds, storing an
empty chunk list under key 37450 - contradicting the claim (and the
docstring of `get_bins`, whose Raises section promises the assertion
unconditionally). -/
theorem reserved_bin_chunk_count_checked_only_in_index_mode :
    getBinsIdx 1 (some 0) [] ⟨reservedBinThreeChunkBytes, 0⟩ =
      .error .assertionError
    ∧ getBinsFull 1 [] ⟨reservedBinZeroChunkBytes, 0⟩ =
      .ok ([(unmapBin, [])], ⟨reservedBinZeroChunkBytes, 8⟩) := by
  exact ⟨by decide, by decide⟩

/-- C8 (counterexample).  The claim says `reg2bin(0, 100)` and
`reg2bin(16000, 16100)` return two distinct finest-level bin ids.  Both
regions lie inside the first 16384-bp window, so both calls return the
same id 4681. -/
theorem reg2bin_small_regions_equal_counterexample :
    reg2bin 0 100 = reg2bin 16000 16100 ∧ reg2bin 0 100 = 4681 := by
  exact ⟨by decide, by decide⟩

/-- C8 (amended).  `reg2bin(0, 100)` and `reg2bin(16000, 16100)` both
return the finest-level bin id 4681, which lies in
`[4681, 4681 + 2^18)`; the two ids are equal, not distinct. -/
theorem reg2bin_small_regions_finest_level :
    reg2bin 0 100 = 4681 ∧ reg2bin 16000 16100 = 4681
    ∧ binShiftOf 4681 = 14 ∧ 4681 ≤ 4681 ∧ 4681 < 4681 + 2 ^ 18 := by
  refine ⟨by decide, by decide, by decide, by decide, by norm_num⟩

/-- C9.  The claim (and the docstring of `Bai.seek`) says `seek(None,
_)` and `seek` with a non-integer offset fail with the invalid-argument
`ValueError`.  The guard `isinstance(offset, (int, None))` on
bai.py:375 is broken - `None` is not a type - so for `None` and for a
string offset alike the `isinstance` call itself raises `TypeError`,
and neither documented `ValueError` branch is ever reached. -/
theorem seek_none_or_string_raises_typeError :
    baiSeek .pyNone 0 ⟨[], 0⟩ = .error .typeError
    ∧ baiSeek (.pyStr [120]) 0 ⟨[], 0⟩ = .error .typeError
    ∧ .error .typeError ≠ (.error .valueError : Except PyErr (Nat × ByteStream)) := by
  exact ⟨by decide, by decide, by decide⟩

/-- Once the running begin is falsy (None or 0), the next step of the
merge loop overwrites the run, so any two falsy accumulator states
continue identically on a non-empty remainder. -/
theorem queryMergeLoop_falsy_reset (rest : List Chunk) (hne : rest ≠ [])
    (cs ce cs2 ce2 : Option Nat) (h1 : falsy cs = true) (h2 : falsy cs2 = true) :
    queryMergeLoop rest cs ce = queryMergeLoop rest cs2 ce2 := by
  cases rest with
  | nil => exact absurd rfl hne
  | cons c rest2 => simp [queryMergeLoop, h1, h2]

/-- Mechanism behind the zero-begin drop in the isolated merge
accumulator (bai.py:348-360): when the first chunk of the sequence has
`voffset_beg = 0` and at least one chunk follows, the output is exactly
what it would have been had the first chunk never been there - the
truthiness test `if not current_start` treats the running begin 0 as
"no run in progress", so the next chunk silently replaces the pending
run instead of extending or flushing it. -/
theorem queryMerge_drops_zero_begin_run (c : Chunk) (rest : List Chunk)
    (h0 : c.voffset_beg = 0) (hne : rest ≠ []) :
    queryMergeLoop (c :: rest) none none = queryMergeLoop rest none none := by
  have hstep : queryMergeLoop (c :: rest) none none =
      queryMergeLoop rest (some c.voffset_beg) (some c.voffset_end) := by
    simp [queryMergeLoop, falsy]
  rw [hstep]
  exact queryMergeLoop_falsy_reset rest hne _ _ _ _ (by simp [falsy, h0]) rfl

/-- C10.  The claim describes the query's output when the first
admitted chunk has `voffset_beg = 0` and more are admitted - but in the
program that situation can never arise: consuming `query` raises
`TypeError` at bai.py:327 (string subscript on the `Ref` namedtuple;
the line also references the undefined `self.LINEAR_INDEX_WINDOW`)
before any chunk is admitted, a slip that contradicts the class
docstring's description of `current_ref` as a dict (bai.py:115-117).
First conjunct: the faithful consumption at the failing input - a query
of `[0, 100)` against an index whose reference 0 holds bin 4681 with
chunks `(0, 5)`, `(7, 9)` and intervals `[0, 50]`, so that both chunks
would be admitted - raises `TypeError`.  Under the docstring's reading
of the subscripts the claim is exactly right, by the accumulator
mechanism of `queryMerge_drops_zero_begin_run`: the documented-intent
run admits both chunks yet outputs only `[(7, 9)]` (second conjunct),
the same output as the index without the zero-begin chunk (third
conjunct) - the first chunk's byte range is dropped. -/
theorem query_zero_begin_chunk_dropped :
    (baiInitIntended zeroChunkIndexBytes).bind (baiQueryRun 0 0 100) =
      .error .typeError
    ∧ Except.map (fun p => p.1)
        ((baiInitIntended zeroChunkIndexBytes).bind (baiQueryIntendedRun 0 0 100)) =
        .ok [(some 7, some 9)]
    ∧ Except.map (fun p => p.1)
        ((baiInitIntended soloChunkIndexBytes).bind (baiQueryIntendedRun 0 0 100)) =
        .ok [(some 7, some 9)] := by
  exact ⟨rfl, rfl, rfl⟩

/-!
## C4: `reg2bin` is always among `reg2bins`
-/

/-- Right shift is monotone in the shifted value. -/
theorem shiftRight_le_shiftRight {x y : Nat} (h : x ≤ y) (s : Nat) :
    x >>> s ≤ y >>> s := by
  simp only [Nat.shiftRight_eq_div_pow]
  exact Nat.div_le_div_right h

/-- The guarded lower bound `i` of a `reg2bins` level is just
`rbeg >> shift` (the `rbeg > 0` guard is redundant for naturals). -/
theorem reg2binsList_i_eq (rbeg s : Nat) :
    (if 0 < rbeg then rbeg >>> s else 0) = rbeg >>> s := by
  rcases Nat.eq_zero_or_pos rbeg with h | h
  · simp [h]
  · rw [if_pos h]

/-- The guarded upper bound `j` of a `reg2bins` level is just
`rend >> shift` whenever `rend ≤ MAX_RNG`. -/
theorem reg2binsList_j_eq (rend s : Nat) (h : rend ≤ maxRng) :
    (if rend < maxRng then rend >>> s else maxRng >>> s) = rend >>> s := by
  rcases lt_or_eq_of_le h with h | h
  · rw [if_pos h]
  · rw [h]
    simp

/-- For any level `(base, shift)` of the scheme, the bin
`base + (beg >> shift)` is produced by the `reg2bins` loop whenever
`beg ≤ e ≤ MAX_RNG`. -/
theorem mem_reg2binsList_of_level (beg e base s : Nat)
    (hbs : (base, s) ∈ reg2binsLevels) (hbe : beg ≤ e) (he : e ≤ maxRng) :
    base + beg >>> s ∈ reg2binsList beg e := by
  unfold reg2binsList
  apply List.mem_flatMap.mpr
  refine ⟨(base, s), hbs, ?_⟩
  dsimp only
  rw [reg2binsList_i_eq, reg2binsList_j_eq _ _ he]
  apply List.mem_map.mpr
  refine ⟨beg >>> s, ?_, rfl⟩
  apply List.mem_range'_1.mpr
  have hij : beg >>> s ≤ e >>> s := shiftRight_le_shiftRight hbe s
  omega

/-- C4.  For every valid non-empty region
`0 ≤ beg < end ≤ 2^29 - 1`, consuming the `reg2bins` generator
succeeds and yields the level-by-level bin list, and the bin id
returned by `reg2bin(beg, end)` is a member of that sequence. -/
theorem reg2bin_mem_reg2bins (beg e : Nat) (h1 : beg < e) (h2 : e ≤ maxRng) :
    (reg2bins (beg : Int) (e : Int)).run = .ok (reg2binsList beg e)
    ∧ reg2bin beg e ∈ reg2binsList beg e := by
  constructor
  · have hg : 0 ≤ (beg : Int) ∧ (beg : Int) ≤ (e : Int)
        ∧ (e : Int) ≤ (maxRng : Int) :=
      ⟨by exact_mod_cast Nat.zero_le beg, by exact_mod_cast h1.le,
        by exact_mod_cast h2⟩
    simp only [reg2bins, if_pos hg]
    simp
  · have hbe : beg ≤ e := h1.le
    unfold reg2bin
    split_ifs with h14 h17 h20 h23 h26
    · have hb : ((1 <<< 15) - 1) / 7 = 4681 := by decide
      rw [hb]
      exact mem_reg2binsList_of_level beg e 4681 14 (by decide) hbe h2
    · have hb : ((1 <<< 12) - 1) / 7 = 585 := by decide
      rw [hb]
      exact mem_reg2binsList_of_level beg e 585 17 (by decide) hbe h2
    · have hb : ((1 <<< 9) - 1) / 7 = 73 := by decide
      rw [hb]
      exact mem_reg2binsList_of_level beg e 73 20 (by decide) hbe h2
    · have hb : ((1 <<< 6) - 1) / 7 = 9 := by decide
      rw [hb]
      exact mem_reg2binsList_of_level beg e 9 23 (by decide) hbe h2
    · have hb : ((1 <<< 3) - 1) / 7 = 1 := by decide
      rw [hb]
      exact mem_reg2binsList_of_level beg e 1 26 (by decide) hbe h2
    · have h29 : beg >>> 29 = 0 := by
        rw [Nat.shiftRight_eq_div_pow]
        apply Nat.div_eq_of_lt
        have : maxRng < 2 ^ 29 := by norm_num [maxRng]
        omega
      have := mem_reg2binsList_of_level beg e 0 29 (by decide) hbe h2
      rwa [h29, Nat.add_zero] at this

/-- Witness for C4 at the region `[3, 5)`. -/
theorem reg2bin_mem_reg2bins_witness :
    3 < 5 ∧ 5 ≤ maxRng
    ∧ ((reg2bins ((3 : Nat) : Int) ((5 : Nat) : Int)).run = .ok (reg2binsList 3 5)
      ∧ reg2bin 3 5 ∈ reg2binsList 3 5) :=
  ⟨by decide, by decide, reg2bin_mem_reg2bins 3 5 (by decide) (by decide)⟩

/-!
## C3: `reg2bin` returns the single smallest containing bin
-/

/-- Any bin that fully contains a non-empty region `[beg, e)` is the
unique bin of its level around the region: its id is the level base
plus `beg` shifted by the level's shift, and `beg` and `e - 1` agree
under that shift (the region does not straddle a window boundary of
that level). -/
theorem coverer_cases (beg e b : Nat) (h1 : beg < e) (hcov : binCovers b beg e) :
    (binShiftOf b = 29 ∧ b = 0)
    ∨ (binShiftOf b = 26 ∧ b = 1 + beg / 2 ^ 26 ∧ beg / 2 ^ 26 = (e - 1) / 2 ^ 26)
    ∨ (binShiftOf b = 23 ∧ b = 9 + beg / 2 ^ 23 ∧ beg / 2 ^ 23 = (e - 1) / 2 ^ 23)
    ∨ (binShiftOf b = 20 ∧ b = 73 + beg / 2 ^ 20 ∧ beg / 2 ^ 20 = (e - 1) / 2 ^ 20)
    ∨ (binShiftOf b = 17 ∧ b = 585 + beg / 2 ^ 17 ∧ beg / 2 ^ 17 = (e - 1) / 2 ^ 17)
    ∨ (binShiftOf b = 14 ∧ b = 4681 + beg / 2 ^ 14 ∧ beg / 2 ^ 14 = (e - 1) / 2 ^ 14) := by
  obtain ⟨hb, hlo, hhi⟩ := hcov
  unfold numBins at hb
  unfold binLo at hlo hhi
  by_cases c0 : b = 0
  · subst c0
    exact Or.inl ⟨by unfold binShiftOf; simp, rfl⟩
  by_cases c9 : b < 9
  · have hs : binShiftOf b = 26 := by unfold binShiftOf; rw [if_neg c0, if_pos c9]
    have hba : binBaseOf b = 1 := by unfold binBaseOf; rw [if_neg c0, if_pos c9]
    rw [hs, hba] at hlo hhi
    simp only [Nat.shiftLeft_eq] at hlo hhi
    exact Or.inr (Or.inl ⟨hs, by omega, by omega⟩)
  by_cases c73 : b < 73
  · have hs : binShiftOf b = 23 := by
      unfold binShiftOf; rw [if_neg c0, if_neg c9, if_pos c73]
    have hba : binBaseOf b = 9 := by
      unfold binBaseOf; rw [if_neg c0, if_neg c9, if_pos c73]
    rw [hs, hba] at hlo hhi
    simp only [Nat.shiftLeft_eq] at hlo hhi
    exact Or.inr (Or.inr (Or.inl ⟨hs, by omega, by omega⟩))
  by_cases c585 : b < 585
  · have hs : binShiftOf b = 20 := by
      unfold binShiftOf; rw [if_neg c0, if_neg c9, if_neg c73, if_pos c585]
    have hba : binBaseOf b = 73 := by
      unfold binBaseOf; rw [if_neg c0, if_neg c9, if_neg c73, if_pos c585]
    rw [hs, hba] at hlo hhi
    simp only [Nat.shiftLeft_eq] at hlo hhi
    exact Or.inr (Or.inr (Or.inr (Or.inl ⟨hs, by omega, by omega⟩)))
  by_cases c4681 : b < 4681
  · have hs : binShiftOf b = 17 := by
      unfold binShiftOf; rw [if_neg c0, if_neg c9, if_neg c73, if_neg c585, if_pos c4681]
    have hba : binBaseOf b = 585 := by
      unfold binBaseOf; rw [if_neg c0, if_neg c9, if_neg c73, if_neg c585, if_pos c4681]
    rw [hs, hba] at hlo hhi
    simp only [Nat.shiftLeft_eq] at hlo hhi
    exact Or.inr (Or.inr (Or.inr (Or.inr (Or.inl ⟨hs, by omega, by omega⟩))))
  · have hs : binShiftOf b = 14 := by
      unfold binShiftOf; rw [if_neg c0, if_neg c9, if_neg c73, if_neg c585, if_neg c4681]
    have hba : binBaseOf b = 4681 := by
      unfold binBaseOf; rw [if_neg c0, if_neg c9, if_neg c73, if_neg c585, if_neg c4681]
    rw [hs, hba] at hlo hhi
    simp only [Nat.shiftLeft_eq] at hlo hhi
    exact Or.inr (Or.inr (Or.inr (Or.inr (Or.inr ⟨hs, by omega, by omega⟩))))

/-- Bin 0 contains every region bounded by `2^29`. -/
theorem covers_level29 (beg e : Nat) (h2 : e ≤ 2 ^ 29) : binCovers 0 beg e := by
  have hlo : binLo 0 = 0 := by decide
  have hsh : (1 : Nat) <<< binShiftOf 0 = 2 ^ 29 := by decide
  refine ⟨by unfold numBins; omega, ?_, ?_⟩
  · rw [hlo]
    exact Nat.zero_le _
  · rw [hlo, hsh]
    omega

/-- If the region fits in one level-26 window, the level-26 bin over
`beg` contains it. -/
theorem covers_level26 (beg e : Nat) (h1 : beg < e) (h2 : e ≤ 2 ^ 29)
    (hf : beg / 2 ^ 26 = (e - 1) / 2 ^ 26) :
    binCovers (1 + beg / 2 ^ 26) beg e := by
  have hx : beg / 2 ^ 26 < 8 := by omega
  have hs : binShiftOf (1 + beg / 2 ^ 26) = 26 := by
    unfold binShiftOf; split_ifs <;> omega
  have hba : binBaseOf (1 + beg / 2 ^ 26) = 1 := by
    unfold binBaseOf; split_ifs <;> omega
  refine ⟨by unfold numBins; omega, ?_, ?_⟩ <;>
    · unfold binLo
      rw [hs, hba]
      simp only [Nat.shiftLeft_eq]
      omega

/-- If the region fits in one level-23 window, the level-23 bin over
`beg` contains it. -/
theorem covers_level23 (beg e : Nat) (h1 : beg < e) (h2 : e ≤ 2 ^ 29)
    (hf : beg / 2 ^ 23 = (e - 1) / 2 ^ 23) :
    binCovers (9 + beg / 2 ^ 23) beg e := by
  have hx : beg / 2 ^ 23 < 64 := by omega
  have hs : binShiftOf (9 + beg / 2 ^ 23) = 23 := by
    unfold binShiftOf; split_ifs <;> omega
  have hba : binBaseOf (9 + beg / 2 ^ 23) = 9 := by
    unfold binBaseOf; split_ifs <;> omega
  refine ⟨by unfold numBins; omega, ?_, ?_⟩ <;>
    · unfold binLo
      rw [hs, hba]
      simp only [Nat.shiftLeft_eq]
      omega

/-- If the region fits in one level-20 window, the level-20 bin over
`beg` contains it. -/
theorem covers_level20 (beg e : Nat) (h1 : beg < e) (h2 : e ≤ 2 ^ 29)
    (hf : beg / 2 ^ 20 = (e - 1) / 2 ^ 20) :
    binCovers (73 + beg / 2 ^ 20) beg e := by
  have hx : beg / 2 ^ 20 < 512 := by omega
  have hs : binShiftOf (73 + beg / 2 ^ 20) = 20 := by
    unfold binShiftOf; split_ifs <;> omega
  have hba : binBaseOf (73 + beg / 2 ^ 20) = 73 := by
    unfold binBaseOf; split_ifs <;> omega
  refine ⟨by unfold numBins; omega, ?_, ?_⟩ <;>
    · unfold binLo
      rw [hs, hba]
      simp only [Nat.shiftLeft_eq]
      omega

/-- If the region fits in one level-17 window, the level-17 bin over
`beg` contains it. -/
theorem covers_level17 (beg e : Nat) (h1 : beg < e) (h2 : e ≤ 2 ^ 29)
    (hf : beg / 2 ^ 17 = (e - 1) / 2 ^ 17) :
    binCovers (585 + beg / 2 ^ 17) beg e := by
  have hx : beg / 2 ^ 17 < 4096 := by omega
  have hs : binShiftOf (585 + beg / 2 ^ 17) = 17 := by
    unfold binShiftOf; split_ifs <;> omega
  have hba : binBaseOf (585 + beg / 2 ^ 17) = 585 := by
    unfold binBaseOf; split_ifs <;> omega
  refine ⟨by unfold numBins; omega, ?_, ?_⟩ <;>
    · unfold binLo
      rw [hs, hba]
      simp only [Nat.shiftLeft_eq]
      omega

/-- If the region fits in one level-14 window, the level-14 bin over
`beg` contains it. -/
theorem covers_level14 (beg e : Nat) (h1 : beg < e) (h2 : e ≤ 2 ^ 29)
    (hf : beg / 2 ^ 14 = (e - 1) / 2 ^ 14) :
    binCovers (4681 + beg / 2 ^ 14) beg e := by
  have hx : beg / 2 ^ 14 < 32768 := by omega
  have hs : binShiftOf (4681 + beg / 2 ^ 14) = 14 := by
    unfold binShiftOf; split_ifs <;> omega
  have hba : binBaseOf (4681 + beg / 2 ^ 14) = 4681 := by
    unfold binBaseOf; split_ifs <;> omega
  refine ⟨by unfold numBins; omega, ?_, ?_⟩ <;>
    · unfold binLo
      rw [hs, hba]
      simp only [Nat.shiftLeft_eq]
      omega

/-- C3.  For every half-open region `[beg, e)` with
`0 ≤ beg < e ≤ 2^29`, `reg2bin(beg, e)` returns a bin that fully
contains the region, no containing bin sits on a finer level (smaller
window, smaller shift), and the result is the only containing bin of
its level - i.e. it is the id of the single smallest bin of the
six-level scheme containing the region, with bin 0 (the genome-spanning
bin) as the fallback when no finer level contains it. -/
theorem reg2bin_single_smallest_bin (beg e : Nat) (h1 : beg < e) (h2 : e ≤ 2 ^ 29) :
    binCovers (reg2bin beg e) beg e
    ∧ ∀ b, binCovers b beg e →
        binShiftOf (reg2bin beg e) ≤ binShiftOf b
        ∧ (binShiftOf b = binShiftOf (reg2bin beg e) → b = reg2bin beg e) := by
  unfold reg2bin
  split_ifs with h14 h17 h20 h23 h26
  · have hf : beg / 2 ^ 14 = (e - 1) / 2 ^ 14 := by
      simpa only [Nat.shiftRight_eq_div_pow] using h14
    have hval : ((1 <<< 15) - 1) / 7 + beg >>> 14 = 4681 + beg / 2 ^ 14 := by
      rw [Nat.shiftRight_eq_div_pow]
      norm_num [Nat.shiftLeft_eq]
    rw [hval]
    have hx : beg / 2 ^ 14 < 32768 := by omega
    have hs : binShiftOf (4681 + beg / 2 ^ 14) = 14 := by
      unfold binShiftOf; split_ifs <;> omega
    refine ⟨covers_level14 beg e h1 h2 hf, fun b hcov => ?_⟩
    rcases coverer_cases beg e b h1 hcov with ⟨hsb, hb⟩ | ⟨hsb, hb, hfb⟩
      | ⟨hsb, hb, hfb⟩ | ⟨hsb, hb, hfb⟩ | ⟨hsb, hb, hfb⟩ | ⟨hsb, hb, hfb⟩ <;>
      exact ⟨by omega, fun hq => by omega⟩
  · have hn14 : ¬beg / 2 ^ 14 = (e - 1) / 2 ^ 14 := by
      simpa only [Nat.shiftRight_eq_div_pow] using h14
    have hf : beg / 2 ^ 17 = (e - 1) / 2 ^ 17 := by
      simpa only [Nat.shiftRight_eq_div_pow] using h17
    have hval : ((1 <<< 12) - 1) / 7 + beg >>> 17 = 585 + beg / 2 ^ 17 := by
      rw [Nat.shiftRight_eq_div_pow]
      norm_num [Nat.shiftLeft_eq]
    rw [hval]
    have hx : beg / 2 ^ 17 < 4096 := by omega
    have hs : binShiftOf (585 + beg / 2 ^ 17) = 17 := by
      unfold binShiftOf; split_ifs <;> omega
    refine ⟨covers_level17 beg e h1 h2 hf, fun b hcov => ?_⟩
    rcases coverer_cases beg e b h1 hcov with ⟨hsb, hb⟩ | ⟨hsb, hb, hfb⟩
      | ⟨hsb, hb, hfb⟩ | ⟨hsb, hb, hfb⟩ | ⟨hsb, hb, hfb⟩ | ⟨hsb, hb, hfb⟩ <;>
      exact ⟨by omega, fun hq => by omega⟩
  · have hn14 : ¬beg / 2 ^ 14 = (e - 1) / 2 ^ 14 := by
      simpa only [Nat.shiftRight_eq_div_pow] using h14
    have hn17 : ¬beg / 2 ^ 17 = (e - 1) / 2 ^ 17 := by
      simpa only [Nat.shiftRight_eq_div_pow] using h17
    have hf : beg / 2 ^ 20 = (e - 1) / 2 ^ 20 := by
      simpa only [Nat.shiftRight_eq_div_pow] using h20
    have hval : ((1 <<< 9) - 1) / 7 + beg >>> 20 = 73 + beg / 2 ^ 20 := by
      rw [Nat.shiftRight_eq_div_pow]
      norm_num [Nat.shiftLeft_eq]
    rw [hval]
    have hx : beg / 2 ^ 20 < 512 := by omega
    have hs : binShiftOf (73 + beg / 2 ^ 20) = 20 := by
      unfold binShiftOf; split_ifs <;> omega
    refine ⟨covers_level20 beg e h1 h2 hf, fun b hcov => ?_⟩
    rcases coverer_cases beg e b h1 hcov with ⟨hsb, hb⟩ | ⟨hsb, hb, hfb⟩
      | ⟨hsb, hb, hfb⟩ | ⟨hsb, hb, hfb⟩ | ⟨hsb, hb, hfb⟩ | ⟨hsb, hb, hfb⟩ <;>
      exact ⟨by omega, fun hq => by omega⟩
  · have hn14 : ¬beg / 2 ^ 14 = (e - 1) / 2 ^ 14 := by
      simpa only [Nat.shiftRight_eq_div_pow] using h14
    have hn17 : ¬beg / 2 ^ 17 = (e - 1) / 2 ^ 17 := by
      simpa only [Nat.shiftRight_eq_div_pow] using h17
    have hn20 : ¬beg / 2 ^ 20 = (e - 1) / 2 ^ 20 := by
      simpa only [Nat.shiftRight_eq_div_pow] using h20
    have hf : beg / 2 ^ 23 = (e - 1) / 2 ^ 23 := by
      simpa only [Nat.shiftRight_eq_div_pow] using h23
    have hval : ((1 <<< 6) - 1) / 7 + beg >>> 23 = 9 + beg / 2 ^ 23 := by
      rw [Nat.shiftRight_eq_div_pow]
      norm_num [Nat.shiftLeft_eq]
    rw [hval]
    have hx : beg / 2 ^ 23 < 64 := by omega
    have hs : binShiftOf (9 + beg / 2 ^ 23) = 23 := by
      unfold binShiftOf; split_ifs <;> omega
    refine ⟨covers_level23 beg e h1 h2 hf, fun b hcov => ?_⟩
    rcases coverer_cases beg e b h1 hcov with ⟨hsb, hb⟩ | ⟨hsb, hb, hfb⟩
      | ⟨hsb, hb, hfb⟩ | ⟨hsb, hb, hfb⟩ | ⟨hsb, hb, hfb⟩ | ⟨hsb, hb, hfb⟩ <;>
      exact ⟨by omega, fun hq => by omega⟩
  · have hn14 : ¬beg / 2 ^ 14 = (e - 1) / 2 ^ 14 := by
      simpa only [Nat.shiftRight_eq_div_pow] using h14
    have hn17 : ¬beg / 2 ^ 17 = (e - 1) / 2 ^ 17 := by
      simpa only [Nat.shiftRight_eq_div_pow] using h17
    have hn20 : ¬beg / 2 ^ 20 = (e - 1) / 2 ^ 20 := by
      simpa only [Nat.shiftRight_eq_div_pow] using h20
    have hn23 : ¬beg / 2 ^ 23 = (e - 1) / 2 ^ 23 := by
      simpa only [Nat.shiftRight_eq_div_pow] using h23
    have hf : beg / 2 ^ 26 = (e - 1) / 2 ^ 26 := by
      simpa only [Nat.shiftRight_eq_div_pow] using h26
    have hval : ((1 <<< 3) - 1) / 7 + beg >>> 26 = 1 + beg / 2 ^ 26 := by
      rw [Nat.shiftRight_eq_div_pow]
      norm_num [Nat.shiftLeft_eq]
    rw [hval]
    have hx : beg / 2 ^ 26 < 8 := by omega
    have hs : binShiftOf (1 + beg / 2 ^ 26) = 26 := by
      unfold binShiftOf; split_ifs <;> omega
    refine ⟨covers_level26 beg e h1 h2 hf, fun b hcov => ?_⟩
    rcases coverer_cases beg e b h1 hcov with ⟨hsb, hb⟩ | ⟨hsb, hb, hfb⟩
      | ⟨hsb, hb, hfb⟩ | ⟨hsb, hb, hfb⟩ | ⟨hsb, hb, hfb⟩ | ⟨hsb, hb, hfb⟩ <;>
      exact ⟨by omega, fun hq => by omega⟩
  · have hn14 : ¬beg / 2 ^ 14 = (e - 1) / 2 ^ 14 := by
      simpa only [Nat.shiftRight_eq_div_pow] using h14
    have hn17 : ¬beg / 2 ^ 17 = (e - 1) / 2 ^ 17 := by
      simpa only [Nat.shiftRight_eq_div_pow] using h17
    have hn20 : ¬beg / 2 ^ 20 = (e - 1) / 2 ^ 20 := by
      simpa only [Nat.shiftRight_eq_div_pow] using h20
    have hn23 : ¬beg / 2 ^ 23 = (e - 1) / 2 ^ 23 := by
      simpa only [Nat.shiftRight_eq_div_pow] using h23
    have hn26 : ¬beg / 2 ^ 26 = (e - 1) / 2 ^ 26 := by
      simpa only [Nat.shiftRight_eq_div_pow] using h26
    have hs : binShiftOf 0 = 29 := by unfold binShiftOf; simp
    refine ⟨covers_level29 beg e h2, fun b hcov => ?_⟩
    rcases coverer_cases beg e b h1 hcov with ⟨hsb, hb⟩ | ⟨hsb, hb, hfb⟩
      | ⟨hsb, hb, hfb⟩ | ⟨hsb, hb, hfb⟩ | ⟨hsb, hb, hfb⟩ | ⟨hsb, hb, hfb⟩ <;>
      exact ⟨by omega, fun hq => by omega⟩

/-- Witness for C3 at the region `[0, 100)`. -/
theorem reg2bin_single_smallest_bin_witness :
    0 < 100 ∧ 100 ≤ 2 ^ 29
    ∧ (binCovers (reg2bin 0 100) 0 100
      ∧ ∀ b, binCovers b 0 100 →
          binShiftOf (reg2bin 0 100) ≤ binShiftOf b
          ∧ (binShiftOf b = binShiftOf (reg2bin 0 100) → b = reg2bin 0 100)) :=
  ⟨by decide, by decide, reg2bin_single_smallest_bin 0 100 (by decide) (by decide)⟩

end Bamnostic
